import Mathlib

/-!
Shallow embedding of the natural-language-to-SQL validation pipeline of
`src/ia_agent.py` (repository `jLucasZ1/contele-app`).

The Python code works on `str`; here every function is translated to work on
`List Char` (wrapped in `String` at the interface), with the following
documented approximations of Python/regex semantics:

* `str.strip` / regex `\s` use the ASCII whitespace class (space, tab, LF,
  CR, VT, FF); Python additionally strips some Unicode spaces.
* `str.upper` / `str.lower` use `Char.toUpper` / `Char.toLower`, which map
  only ASCII letters; Python also maps accented letters.  All keywords,
  markers and table names checked by the code are ASCII.
* the regex word class `\w` (used by `\b`) is ASCII alphanumerics plus
  underscore, with every non-ASCII codepoint treated as a word constituent
  (Python's Unicode `\w` contains all accented letters).
* Python iterates `TABELAS_PERMITIDAS` and the extracted table set in set
  order; the embedding keeps the extraction order (`FROM` captures then
  `JOIN` captures).  Which offending table is named first is therefore
  implementation-defined in Python; no theorem below depends on the order
  beyond "some extracted offending table".

Functions that consume more than one character per step are written with an
explicit fuel argument (initialised with the length of the list) so that
they are structurally recursive and reduce inside the kernel.
-/

namespace ConteleIA

/-- ASCII part of Python's whitespace class (`\s`, `str.strip`). -/
def isPyWs (c : Char) : Bool :=
  c = ' ' || c = '\t' || c = '\n' || c = '\r' || c = Char.ofNat 11 || c = Char.ofNat 12

/-- Regex word character (`\w`, used for `\b`): ASCII alphanumerics and `_`;
non-ASCII codepoints approximated as word constituents. -/
def isWordChar (c : Char) : Bool :=
  c.isAlphanum || c = '_' || decide (128 ≤ c.toNat)

/-- Character class `[a-zA-Z0-9_.]` of the `FROM`/`JOIN` capture groups in
`_extrair_tabelas`. -/
def isIdentChar (c : Char) : Bool :=
  c.isAlphanum || c = '_' || c = '.'

def upperL (l : List Char) : List Char := l.map Char.toUpper

def lowerL (l : List Char) : List Char := l.map Char.toLower

/-- Python `str.strip()` (ASCII whitespace). -/
def stripL (l : List Char) : List Char :=
  ((l.dropWhile isPyWs).reverse.dropWhile isPyWs).reverse

/-- Python's `pat in s` substring test. -/
def containsL (pat : List Char) : List Char → Bool
  | [] => pat.isPrefixOf []
  | c :: rest => pat.isPrefixOf (c :: rest) || containsL pat rest

/-- Python `str.replace(pat, "")`: remove every (leftmost, non-overlapping)
occurrence of `pat`.  Fuel-driven; `removeAll` supplies enough fuel. -/
def removeAllF (pat : List Char) : Nat → List Char → List Char
  | 0, l => l
  | _ + 1, [] => []
  | fuel + 1, c :: rest =>
    if pat.isPrefixOf (c :: rest) then removeAllF pat fuel ((c :: rest).drop pat.length)
    else c :: removeAllF pat fuel rest

def removeAll (pat l : List Char) : List Char := removeAllF pat l.length l

/-- Lines 1027-1033 of `validar_e_corrigir_sql`: strip, drop markdown fences,
strip, and keep only the first statement (text before the first `;`,
stripped) when a `;` is present. -/
def limparSql (l : List Char) : List Char :=
  if containsL [';'] (stripL (removeAll "```".data (removeAll "```sql".data (stripL l)))) then
    stripL ((stripL (removeAll "```".data
      (removeAll "```sql".data (stripL l)))).takeWhile (fun c => c ≠ ';'))
  else stripL (removeAll "```".data (removeAll "```sql".data (stripL l)))

/-- Tail of the regex `COUNT\s*\(\s*\*\s*\)` after the literal `COUNT`:
`\s* ( \s* * \s* )`; returns the remainder after the match. -/
def parenStar (l : List Char) : Option (List Char) :=
  match l.dropWhile isPyWs with
  | '(' :: l1 =>
    match l1.dropWhile isPyWs with
    | '*' :: l2 =>
      match l2.dropWhile isPyWs with
      | ')' :: l3 => some l3
      | _ => none
    | _ => none
  | _ => none

/-- Case-insensitive literal match of (uppercase) `pat` at the head. -/
def ciPrefixL (pat l : List Char) : Bool := upperL (l.take pat.length) = pat

/-- Match of the regex `COUNT\s*\(\s*\*\s*\)` (IGNORECASE) at the head of
the list; returns the remainder after the match. -/
def matchCount (l : List Char) : Option (List Char) :=
  if ciPrefixL "COUNT".data l then parenStar (l.drop 5) else none

def countRepl : List Char := "COUNT(DISTINCT task_id)".data

/-- `re.sub(r"COUNT\s*\(\s*\*\s*\)", "COUNT(DISTINCT task_id)", sql, flags=I)`:
left-to-right, non-overlapping. -/
def substCountStarF : Nat → List Char → List Char
  | 0, l => l
  | _ + 1, [] => []
  | fuel + 1, c :: rest =>
    match matchCount (c :: rest) with
    | some r => countRepl ++ substCountStarF fuel r
    | none => c :: substCountStarF fuel rest

def substCountStar (l : List Char) : List Char := substCountStarF l.length l

def vwTodasName : List Char := "contele.vw_todas_os_respostas".data

/-- `_forcar_distinct_task_id_em_vw_todas` (lines 1011-1023). -/
def forcar_distinct_task_id_em_vw_todas (l : List Char) : List Char :=
  if containsL vwTodasName l then substCountStar l else l

/-- `comandos_bloqueados` (lines 1043-1053), in source order. -/
def comandosBloqueados : List (List Char) :=
  ["DROP".data, "DELETE".data, "UPDATE".data, "INSERT".data, "TRUNCATE".data,
   "ALTER".data, "CREATE".data, "GRANT".data, "REVOKE".data]

/-- `\b w \b` matches at the head of `l`, where `prev` is the character just
before `l` (if any); `w` consists of word characters. -/
def wordAtHead (w : List Char) (prev : Option Char) (l : List Char) : Bool :=
  (match prev with | none => true | some p => !isWordChar p)
  && w.isPrefixOf l
  && (match l.drop w.length with | [] => true | d :: _ => !isWordChar d)

def containsWordAux (w : List Char) : Option Char → List Char → Bool
  | _, [] => false
  | prev, c :: rest => wordAtHead w prev (c :: rest) || containsWordAux w (some c) rest

/-- `re.search(rf"\b{cmd}\b", s)` is truthy. -/
def containsWord (w l : List Char) : Bool := containsWordAux w none l

/-- Head match of `(20\d{2})` followed by a dash or a slash, without the
leading `\b`: returns the year value, the separator (the last consumed
character) and the remainder. -/
def matchAnoCore : List Char → Option (Nat × Char × List Char)
  | '2' :: '0' :: d1 :: d2 :: sep :: rest =>
    if d1.isDigit && d2.isDigit && (sep = '-' || sep = '/') then
      some (2000 + 10 * (d1.toNat - 48) + (d2.toNat - 48), sep, rest)
    else none
  | _ => none

/-- The year-literal `findall` of line 1058 (`\b`, `20\d{2}`, then dash or
slash): leftmost, non-overlapping, with the `\b` tested against the previous
character. -/
def anosF : Nat → Option Char → List Char → List Nat
  | 0, _, _ => []
  | _ + 1, _, [] => []
  | fuel + 1, prev, c :: rest =>
    let bOk : Bool := match prev with | none => true | some p => !isWordChar p
    match (if bOk then matchAnoCore (c :: rest) else none) with
    | some (y, sep, r) => y :: anosF fuel (some sep) r
    | none => anosF fuel (some c) rest

def extrairAnos (l : List Char) : List Nat := anosF l.length none l

/-- Head match of `\bKW\s+([a-zA-Z0-9_.]+)` past the `\b` (handled by the
caller): case-insensitive keyword, at least one whitespace, then the maximal
identifier run (the capture); returns the capture and the remainder. -/
def matchCapture (kw l : List Char) : Option (List Char × List Char) :=
  if ciPrefixL kw l then
    if ((l.drop kw.length).takeWhile isPyWs).isEmpty then none
    else
      if (((l.drop kw.length).dropWhile isPyWs).takeWhile isIdentChar).isEmpty then none
      else
        some (((l.drop kw.length).dropWhile isPyWs).takeWhile isIdentChar,
          ((l.drop kw.length).dropWhile isPyWs).drop
            (((l.drop kw.length).dropWhile isPyWs).takeWhile isIdentChar).length)
  else none

/-- `re.findall(rf"\b{kw}\s+([a-zA-Z0-9_.]+)", sql, flags=I)`. -/
def capsF (kw : List Char) : Nat → Option Char → List Char → List (List Char)
  | 0, _, _ => []
  | _ + 1, _, [] => []
  | fuel + 1, prev, c :: rest =>
    let bOk : Bool := match prev with | none => true | some p => !isWordChar p
    match (if bOk then matchCapture kw (c :: rest) else none) with
    | some (tok, r) => tok :: capsF kw fuel (some (tok.getLastD '_')) r
    | none => capsF kw fuel (some c) rest

/-- `_extrair_tabelas` (lines 973-984).  Python unions two `findall` passes
into a set; the embedding returns the concatenated capture lists (only
membership matters downstream). -/
def extrair_tabelas (l : List Char) : List (List Char) :=
  capsF "FROM".data l.length none l ++ capsF "JOIN".data l.length none l

/-- `_tem_colunas_invalidas` (lines 987-997). -/
def tem_colunas_invalidas (l : List Char) : Bool :=
  containsL "data_criacao_pendencia".data (lowerL l)
  || containsL "descricao_pendencia".data (lowerL l)

/-- Deterministic tail `FROM\s+contele\.contele_os\s+LIMIT\s+1\b` of the
"generic SQL" regex, matched at the head of `l` (case-insensitive). -/
def matchGenericTail (l : List Char) : Bool :=
  if ciPrefixL "FROM".data l then
    let l1 := l.drop 4
    if (l1.takeWhile isPyWs).isEmpty then false
    else
      let l2 := l1.dropWhile isPyWs
      if ciPrefixL "CONTELE.CONTELE_OS".data l2 then
        let l3 := l2.drop 18
        if (l3.takeWhile isPyWs).isEmpty then false
        else
          let l4 := l3.dropWhile isPyWs
          if ciPrefixL "LIMIT".data l4 then
            let l5 := l4.drop 5
            if (l5.takeWhile isPyWs).isEmpty then false
            else
              match l5.dropWhile isPyWs with
              | '1' :: r => (match r with | [] => true | d :: _ => !isWordChar d)
              | _ => false
          else false
      else false
  else false

/-- The segment standing between `SELECT` and the tail can be split as
`\s+ .+ \s+` (nonempty whitespace, then at least one non-newline character,
then nonempty whitespace). -/
def segOk (seg : List Char) : Bool :=
  (List.range (seg.length + 1)).any (fun a =>
    (List.range (seg.length + 1)).any (fun b =>
      decide (1 ≤ a) && decide (1 ≤ b) && decide (a + b + 1 ≤ seg.length) &&
      ((seg.take a).all isPyWs) && ((seg.drop (seg.length - b)).all isPyWs) &&
      (((seg.drop a).take (seg.length - b - a)).all (fun c => c ≠ '\n'))))

/-- `re.search(r"SELECT\s+.+\s+FROM\s+contele\.contele_os\s+LIMIT\s+1\b", sql, I)`
is truthy: some position carries a full match (existence is what `bool(...)`
tests; leftmost choice is irrelevant). -/
def temGenericMatch (l : List Char) : Bool :=
  (List.range (l.length + 1)).any (fun i =>
    ciPrefixL "SELECT".data (l.drop i) &&
    (List.range (l.length + 1)).any (fun j =>
      decide (i + 6 ≤ j) && matchGenericTail (l.drop j) &&
      segOk ((l.drop (i + 6)).take (j - (i + 6)))))

/-- `_detectar_sql_generico` (lines 1000-1008). -/
def detectar_sql_generico (l : List Char) : Bool :=
  temGenericMatch l
  && !containsL "WHERE".data (upperL l)
  && !containsL "ORDER BY".data (upperL l)

def digitsToNat (ds : List Char) : Nat :=
  ds.foldl (fun n c => 10 * n + (c.toNat - 48)) 0

/-- Head match of `LIMIT\s+(\d+)` (IGNORECASE): literal, at least one
whitespace, maximal digit run; returns the numeric capture and remainder. -/
def matchLimitNum (l : List Char) : Option (Nat × List Char) :=
  if ciPrefixL "LIMIT".data l then
    if ((l.drop 5).takeWhile isPyWs).isEmpty then none
    else
      if (((l.drop 5).dropWhile isPyWs).takeWhile Char.isDigit).isEmpty then none
      else
        some (digitsToNat (((l.drop 5).dropWhile isPyWs).takeWhile Char.isDigit),
          ((l.drop 5).dropWhile isPyWs).drop
            (((l.drop 5).dropWhile isPyWs).takeWhile Char.isDigit).length)
  else none

/-- `re.search(r"LIMIT\s+(\d+)", sql_upper)`: value of the leftmost match. -/
def primeiroLimiteAux : List Char → Option Nat
  | [] => none
  | c :: rest =>
    match matchLimitNum (c :: rest) with
    | some (n, _) => some n
    | none => primeiroLimiteAux rest

def primeiroLimite (l : List Char) : Option Nat := primeiroLimiteAux l

def limitRepl : List Char := "LIMIT 1000".data

/-- `re.sub(r"LIMIT\s+\d+", "LIMIT 1000", sql, flags=I)`. -/
def substLimiteF : Nat → List Char → List Char
  | 0, l => l
  | _ + 1, [] => []
  | fuel + 1, c :: rest =>
    match matchLimitNum (c :: rest) with
    | some (_, r) => limitRepl ++ substLimiteF fuel r
    | none => c :: substLimiteF fuel rest

def substLimite1000 (l : List Char) : List Char := substLimiteF l.length l

/-- `TABELAS_PERMITIDAS` (lines 80-99); a Python set, kept here as a list
(only membership is used). -/
def TABELAS_PERMITIDAS : List (List Char) :=
  ["contele.contele_os".data,
   "contele.contele_os_all".data,
   "contele.contele_answers".data,
   "contele.contele_answers_all".data,
   "contele.vw_todas_os_respostas".data,
   "contele.vw_prospeccao".data,
   "contele.vw_relacionamento".data,
   "contele.vw_levantamento_de_necessidade".data,
   "contele.vw_visita_tecnica".data,
   "contele.vw_resumo_vendedores".data,
   "contele.vw_resumo_clientes".data,
   "contele.vw_timeline_atividades".data,
   "contele.vw_pendencias".data,
   "contele.vw_resumo_pendencias_vendedor".data,
   "contele.vw_resumo_pendencias_cliente".data,
   "contele.vw_visitas_status".data,
   "contele.vw_portfolio_clientes".data]

def msgInicio : String := "❌ SQL deve começar com SELECT ou WITH"

def msgComando (cmd : String) : String := "❌ Comando " ++ cmd ++ " não permitido"

def msgAno (y anoAtual : Nat) : String :=
  "❌ Ano " ++ toString y ++ " inválido na consulta (corrija para "
    ++ toString anoAtual ++ " se aplicável)"

def msgTabela (t : String) : String :=
  "❌ Referência a tabela/view não permitida: " ++ t

def msgColunas : String :=
  "❌ Estão sendo usadas colunas que não existem em vw_pendencias (ex.: data_criacao_pendencia). Ajuste para usar os_created_at."

def msgGenerico : String := "❌ Query muito genérica. Especifique OS, período ou objetivo."

/-- The statement the checks of `validar_e_corrigir_sql` run on: cleaned
input after the `COUNT(*)` rewrite of line 1036 (the value of `sql_limpo`
at line 1038). -/
def declaracaoValidada (sql : String) : List Char :=
  forcar_distinct_task_id_em_vw_todas (limparSql sql.data)

/-- The `LIMIT` enforcement step (lines 1082-1094): `decl` is `sql_limpo`,
`up` its upper-casing (`sql_upper`, computed before this step). -/
def aplicarLimite (decl up : List Char) : List Char :=
  if !containsL "LIMIT".data up then decl ++ "\nLIMIT 100".data
  else
    match primeiroLimite up with
    | some n => if 1000 < n then substLimite1000 decl else decl
    | none => decl

/-- Line 1040: `sql_upper.startswith("SELECT") or sql_upper.startswith("WITH")`. -/
def comecaSelectOuWith (up : List Char) : Bool :=
  "SELECT".data.isPrefixOf up || "WITH".data.isPrefixOf up

/-- `validar_e_corrigir_sql` (lines 1026-1099).  `ANO_ATUAL` (the wall-clock
year captured at module load, line 55) is passed as the parameter
`anoAtual`. -/
def validar_e_corrigir_sql (anoAtual : Nat) (sql : String) : Bool × String :=
  if !comecaSelectOuWith (upperL (declaracaoValidada sql)) then (false, msgInicio)
  else
    match List.find? (fun cmd => containsWord cmd (upperL (declaracaoValidada sql)))
        comandosBloqueados with
    | some cmd => (false, msgComando (String.mk cmd))
    | none =>
      match List.find? (fun y => decide (y < 2024) || decide (anoAtual < y))
          (extrairAnos (declaracaoValidada sql)) with
      | some y => (false, msgAno y anoAtual)
      | none =>
        match List.find? (fun t => containsL ['.'] t && !(TABELAS_PERMITIDAS.contains t))
            (extrair_tabelas (declaracaoValidada sql)) with
        | some t => (false, msgTabela (String.mk t))
        | none =>
          if tem_colunas_invalidas (declaracaoValidada sql) then (false, msgColunas)
          else
            if detectar_sql_generico (aplicarLimite (declaracaoValidada sql)
                (upperL (declaracaoValidada sql))) then (false, msgGenerico)
            else (true, String.mk (aplicarLimite (declaracaoValidada sql)
                (upperL (declaracaoValidada sql))))

/-- `conversas_casuais` (lines 836-870), in source order. -/
def conversas_casuais : List String :=
  ["oi", "olá", "ola", "hey", "hi", "hello", "bom dia", "boa tarde", "boa noite",
   "bom diaa", "tudo bem", "como vai", "como está", "beleza", "e aí", "eai",
   "obrigado", "obrigada", "valeu", "vlw", "brigadão", "brigado", "tchau",
   "até logo", "falou", "até mais", "flw", "legal", "bacana", "show", "top",
   "massa", "dahora"]

/-- `meta_keywords` (lines 872-892), in source order. -/
def meta_keywords : List String :=
  ["quem é você", "quem você é", "quem voce é", "quem voce e", "o que você faz",
   "o que voce faz", "para que serve", "sua função", "sua individualidade",
   "se apresente", "seu papel", "sua especialidade", "quem és", "qual é seu nome",
   "qual e seu nome", "o que você consegue fazer", "suas capacidades específicas",
   "como você funciona internamente", "que tipo de pergunta"]

/-- `dados_keywords` (lines 894-960), in source order. -/
def dados_keywords : List String :=
  ["quantas", "quantos", "quanto", "total", "soma", "média", "media", "mostre",
   "liste", "exiba", "busque", "encontre", "procure", "os", "os's", "visita",
   "cliente", "vendedor", "técnico", "tecnico", "poi", "task", "objetivo",
   "prospecção", "prospeccao", "relacionamento", "levantamento", "ranking",
   "top", "último", "ultima", "mês", "mes", "ano", "período", "periodo",
   "status", "concluída", "concluida", "pendente", "finalizada", "comparar",
   "comparação", "comparacao", "diferença", "diferenca", "resumo", "detalhes",
   "informações", "informacoes", "relata", "foi feito", "diz", "sobre",
   "aprofundar", "mais sobre", "essa os", "desta os", "da os", "essa visita",
   "esse cliente", "consegue", "pode", "pendência", "pendencias"]

/-- Line 962: the normalized utterance starts with (or equals) a word of the
casual list. -/
def casualMatch (pl : List Char) : Bool :=
  conversas_casuais.any (fun c => c.data.isPrefixOf pl || pl = c.data)

/-- Line 964: some meta keyword occurs as a substring. -/
def metaMatch (pl : List Char) : Bool :=
  meta_keywords.any (fun m => containsL m.data pl)

/-- Line 966: some data keyword occurs as a substring. -/
def dadosMatch (pl : List Char) : Bool :=
  dados_keywords.any (fun d => containsL d.data pl)

/-- `detectar_tipo_pergunta` (lines 833-968): lower-case and strip the
utterance, then test the casual list (prefix or equality), then the meta
list (substring), then the data list (substring), defaulting to `dados`. -/
def detectar_tipo_pergunta (pergunta : String) : String :=
  let pl := stripL (lowerL pergunta.data)
  if casualMatch pl then "casual"
  else if metaMatch pl then "meta"
  else if dadosMatch pl then "dados"
  else "dados"

/-- Cleanup the generator applies to a successful LLM completion
(lines 1247-1248): strip, drop markdown fences, strip. -/
def limparRespostaLlm (txt : String) : String :=
  String.mk (stripL (removeAll "```".data (removeAll "```sql".data (stripL txt.data))))

/-- The retry loop of `gerar_sql_com_ia` (lines 1221-1266).  Each element of
the oracle list is the outcome of one LLM attempt: `.ok txt` a completion,
`.error e` a raised exception (text of the exception).  The loop returns the
cleaned text of the first successful attempt; if every attempt raises, it
falls through to the error-marker string carrying the last exception
(`ultima_excecao`, rendered `None` by the f-string when no attempt ran). -/
def tentativasF (maxRetries : Nat) : List (Except String String) → Option String → String
  | [], ultima =>
    "-- Erro ao gerar SQL após " ++ toString maxRetries ++ " tentativas: "
      ++ (match ultima with | some e => e | none => "None")
  | .ok txt :: _, _ => limparRespostaLlm txt
  | .error e :: rest, _ => tentativasF maxRetries rest (some e)

/-- `gerar_sql_com_ia` (lines 1164-1266), with the OpenAI client and the LLM
transport abstracted: `clienteOk` is whether the module-level `client` is
configured (line 41/1179), and `tentativas` the outcomes of the (at most
`maxRetries`, default 3) attempts actually available to the loop. -/
def gerar_sql_com_ia (clienteOk : Bool) (maxRetries : Nat)
    (tentativas : List (Except String String)) : String :=
  if !clienteOk then "-- Erro: OpenAI não configurada"
  else tentativasF maxRetries tentativas none

/-- Outcome of the data branch of `responder_pergunta_livre` for a generated
candidate SQL: error-marker short-circuit, validator rejection (no
execution), or execution of the validated SQL. -/
inductive EtapaDados where
  | erroGeracao (msg : String)
  | rejeitada (msg : String)
  | executa (sqlValidado : String)
deriving DecidableEq, Repr

/-- Model of lines 1524-1541 of `responder_pergunta_livre`: the generated
SQL is checked for the `-- Erro` marker (short-circuit before validation);
otherwise it is validated, and `executar_sql` runs only on acceptance (a
rejection returns the reason, possibly with an appended hint). -/
def fluxoDados (anoAtual : Nat) (sqlBruto : String) : EtapaDados :=
  if "-- Erro".data.isPrefixOf sqlBruto.data then .erroGeracao ("❌ " ++ sqlBruto)
  else
    match validar_e_corrigir_sql anoAtual sqlBruto with
    | (true, v) => .executa v
    | (false, r) => .rejeitada r

/-- Route taken by `responder_pergunta_livre` (lines 1499-1523) from the
intent classification: the casual branch answers via
`conversar_casualmente`, the meta branch via a fixed template, and only the
final branch enters SQL generation. -/
inductive Rota where
  | casual
  | meta
  | dados
deriving DecidableEq, Repr

def rotaResposta (pergunta : String) : Rota :=
  match detectar_tipo_pergunta pergunta with
  | "casual" => .casual
  | "meta" => .meta
  | _ => .dados

/-- Some position of `l` carries a match of the `COUNT(*)` regex of
`_forcar_distinct_task_id_em_vw_todas` (a "bare `COUNT(*)`" occurrence). -/
def temCountStar : List Char → Bool
  | [] => false
  | c :: rest => (matchCount (c :: rest)).isSome || temCountStar rest

/-- Some position of `l` carries a match of `LIMIT\s+(\d+)`. -/
def temLimitMatch : List Char → Bool
  | [] => false
  | c :: rest => (matchLimitNum (c :: rest)).isSome || temLimitMatch rest

/-! ## General lemmas about the string toolkit -/

theorem charToNat_ofNat (n : Nat) (h : n.isValidChar) : (Char.ofNat n).toNat = n := by
  simp [Char.ofNat, h, Char.ofNatAux, Char.toNat, UInt32.toNat]

theorem toUpper_idem (c : Char) : c.toUpper.toUpper = c.toUpper := by
  simp only [Char.toUpper]
  by_cases h : c.toNat ≥ 97 ∧ c.toNat ≤ 122
  · rw [if_pos h]
    have hval : Nat.isValidChar (c.toNat - 32) := by left; omega
    have hv : (Char.ofNat (c.toNat - 32)).toNat = c.toNat - 32 := charToNat_ofNat _ hval
    rw [if_neg]
    omega
  · rw [if_neg h, if_neg h]

theorem upperL_idem (l : List Char) : upperL (upperL l) = upperL l := by
  simp only [upperL, List.map_map]
  exact List.map_congr_left (fun c _ => toUpper_idem c)

theorem upperL_append (a b : List Char) : upperL (a ++ b) = upperL a ++ upperL b := by
  simp [upperL]

theorem containsL_of_isPrefixOf {pat l : List Char} (h : pat.isPrefixOf l = true) :
    containsL pat l = true := by
  cases l with
  | nil => simpa [containsL] using h
  | cons c rest => simp [containsL, h]

theorem containsL_cons_of_tail {pat rest : List Char} (c : Char)
    (h : containsL pat rest = true) : containsL pat (c :: rest) = true := by
  simp [containsL, h]

theorem containsL_append_left {pat a : List Char} (b : List Char)
    (h : containsL pat a = true) : containsL pat (a ++ b) = true := by
  induction a with
  | nil =>
    simp only [containsL, List.isPrefixOf] at h
    cases pat with
    | nil => exact containsL_of_isPrefixOf (by simp [List.isPrefixOf])
    | cons p ps => simp at h
  | cons c rest ih =>
    simp only [containsL, Bool.or_eq_true] at h
    rcases h with h | h
    · exact containsL_of_isPrefixOf (by
        rw [List.isPrefixOf_iff_prefix] at h ⊢
        exact h.trans (by simpa using List.prefix_append (c :: rest) b))
    · exact containsL_cons_of_tail c (ih h)

theorem containsL_append_right {pat b : List Char} (a : List Char)
    (h : containsL pat b = true) : containsL pat (a ++ b) = true := by
  induction a with
  | nil => simp [h]
  | cons c rest ih => exact containsL_cons_of_tail c ih

/-! ## Discrimination of the rejection messages (third character) -/

theorem msg_ne_of_get2 {s t : String} (h2 : s.data[2]? ≠ t.data[2]?) : s ≠ t :=
  fun h => h2 (by rw [h])

theorem msgComando_get2 (cmd : String) : (msgComando cmd).data[2]? = some 'C' := by
  have : (msgComando cmd).data = "❌ Comando ".data ++ (cmd.data ++ " não permitido".data) := by
    simp [msgComando, String.data_append]
  rw [this, List.getElem?_append_left (by simp)]
  rfl

theorem msgAno_get2 (y a : Nat) : (msgAno y a).data[2]? = some 'A' := by
  have : (msgAno y a).data = "❌ Ano ".data
      ++ (((toString y).data ++ " inválido na consulta (corrija para ".data
        ++ (toString a).data) ++ " se aplicável)".data) := by
    simp [msgAno, String.data_append]
  rw [this, List.getElem?_append_left (by simp)]
  rfl

theorem msgTabela_get2 (t : String) : (msgTabela t).data[2]? = some 'R' := by
  have : (msgTabela t).data = "❌ Referência a tabela/view não permitida: ".data ++ t.data := by
    simp [msgTabela, String.data_append]
  rw [this, List.getElem?_append_left (by simp)]
  rfl

theorem msgTabela_inj {s t : String} (h : msgTabela s = msgTabela t) : s = t := by
  have h2 : (msgTabela s).data = (msgTabela t).data := by rw [h]
  simp only [msgTabela, String.data_append] at h2
  have := List.append_cancel_left h2
  exact String.ext this

/-! ## Claim C3 -/

/-- C3 counterexample: on the exact candidate SQL
`SELECT secret_table.x FROM secret_table` the validator does NOT reject:
`secret_table` carries no schema qualifier (no dot), so the allow-list loop
of lines 1072-1077 skips it as a CTE-style name, the query is accepted with
`LIMIT 100` appended, and the data branch of `responder_pergunta_livre`
proceeds to execution. -/
theorem c3_secret_table_aceita :
    fluxoDados 2025 "SELECT secret_table.x FROM secret_table"
      = EtapaDados.executa "SELECT secret_table.x FROM secret_table\nLIMIT 100" := rfl

/-- C3 (amended): for the schema-qualified variant
`SELECT secret_table.x FROM public.secret_table`, the validator rejects with
a reason naming `public.secret_table` as a disallowed table (the reason
string contains `secret_table`), and the flow stops at rejection — the
executor is never invoked. -/
theorem c3_secret_table_qualificada_rejeita :
    fluxoDados 2025 "SELECT secret_table.x FROM public.secret_table"
      = EtapaDados.rejeitada (msgTabela "public.secret_table")
    ∧ containsL "secret_table".data (msgTabela "public.secret_table").data = true := ⟨rfl, rfl⟩

/-! ## Claim C9 -/

/-- C9: an utterance whose normalization (strip + lower-case) starts with or
equals a word of the casual list is classified `casual`, and
`responder_pergunta_livre` then takes the casual-conversation route (no SQL
generation: only the `dados` route reaches `gerar_sql_com_ia`); the casual
test runs first, so this holds regardless of the meta/data lists.  An
utterance matching none of the three lists falls through to the default
classification `dados`. -/
theorem detectar_casual_prioridade (pergunta : String) :
    (casualMatch (stripL (lowerL pergunta.data)) = true →
      detectar_tipo_pergunta pergunta = "casual" ∧ rotaResposta pergunta = Rota.casual)
    ∧ (casualMatch (stripL (lowerL pergunta.data)) = false →
        metaMatch (stripL (lowerL pergunta.data)) = false →
        dadosMatch (stripL (lowerL pergunta.data)) = false →
        detectar_tipo_pergunta pergunta = "dados") := by
  constructor
  · intro h
    have hd : detectar_tipo_pergunta pergunta = "casual" := by
      unfold detectar_tipo_pergunta
      simp [h]
    refine ⟨hd, ?_⟩
    unfold rotaResposta
    rw [hd]
    rfl
  · intro h1 h2 h3
    unfold detectar_tipo_pergunta
    simp [h1, h2, h3]

/-- C9 witness: `oi, tudo bem?` is casual (and routed to the casual branch);
`zzz` matches no list and defaults to `dados`. -/
theorem detectar_casual_prioridade_witness :
    detectar_tipo_pergunta "oi, tudo bem?" = "casual"
    ∧ rotaResposta "oi, tudo bem?" = Rota.casual
    ∧ detectar_tipo_pergunta "zzz" = "dados" :=
  ⟨((detectar_casual_prioridade "oi, tudo bem?").1 rfl).1,
   ((detectar_casual_prioridade "oi, tudo bem?").1 rfl).2,
   (detectar_casual_prioridade "zzz").2 rfl rfl rfl⟩

/-! ## Claim C10 -/

theorem tentativasF_all_error_prefix (m : Nat) :
    ∀ (l : List (Except String String)) (ult : Option String),
      (∀ a ∈ l, a.isOk = false) →
      "-- Erro".data.isPrefixOf (tentativasF m l ult).data = true := by
  intro l
  induction l with
  | nil =>
    intro ult _
    rw [List.isPrefixOf_iff_prefix]
    show "-- Erro".data <+: ("-- Erro ao gerar SQL após " ++ toString m ++ " tentativas: "
      ++ (match ult with | some e => e | none => "None")).data
    have h1 : "-- Erro".data <+: "-- Erro ao gerar SQL após ".data := by decide
    refine h1.trans ?_
    simp only [String.data_append, List.append_assoc]
    exact List.prefix_append _ _
  | cons a rest ih =>
    intro ult h
    cases a with
    | ok t =>
      have hh := h (Except.ok t) (List.mem_cons_self _ _)
      simp [Except.isOk, Except.toBool] at hh
    | error e => exact ih (some e) (fun x hx => h x (List.mem_cons_of_mem _ hx))

theorem tentativasF_first_ok (m : Nat) (txt : String)
    (post : List (Except String String)) :
    ∀ (pre : List (Except String String)) (ult : Option String),
      (∀ a ∈ pre, a.isOk = false) →
      tentativasF m (pre ++ (Except.ok txt :: post)) ult = limparRespostaLlm txt := by
  intro pre
  induction pre with
  | nil => intro ult _; rfl
  | cons a rest ih =>
    intro ult h
    cases a with
    | ok t =>
      have hh := h (Except.ok t) (List.mem_cons_self _ _)
      simp [Except.isOk, Except.toBool] at hh
    | error e => exact ih (some e) (fun x hx => h x (List.mem_cons_of_mem _ hx))

/-- C10: the SQL generator never raises past its boundary.  If the OpenAI
client is unconfigured, or every one of its bounded retry attempts raises,
`gerar_sql_com_ia` returns a string prefixed `-- Erro`, and the caller
(`responder_pergunta_livre`, modelled by `fluxoDados`) detects the marker
and short-circuits to a user-facing error message without validation or
execution; when some attempt succeeds (after any failed ones), the cleaned
LLM text is returned. -/
theorem gerar_sql_erro_marcador (clienteOk : Bool) (maxRetries anoAtual : Nat)
    (tentativas : List (Except String String)) :
    ((clienteOk = false ∨ ∀ a ∈ tentativas, a.isOk = false) →
      "-- Erro".data.isPrefixOf (gerar_sql_com_ia clienteOk maxRetries tentativas).data = true
      ∧ fluxoDados anoAtual (gerar_sql_com_ia clienteOk maxRetries tentativas)
          = EtapaDados.erroGeracao ("❌ " ++ gerar_sql_com_ia clienteOk maxRetries tentativas))
    ∧ (∀ (pre : List (Except String String)) (txt : String)
          (post : List (Except String String)), clienteOk = true →
        tentativas = pre ++ (Except.ok txt :: post) → (∀ a ∈ pre, a.isOk = false) →
        gerar_sql_com_ia clienteOk maxRetries tentativas = limparRespostaLlm txt) := by
  constructor
  · intro h
    have hpref : "-- Erro".data.isPrefixOf
        (gerar_sql_com_ia clienteOk maxRetries tentativas).data = true := by
      rcases h with h | h
      · subst h; rfl
      · cases clienteOk with
        | false => rfl
        | true =>
          show "-- Erro".data.isPrefixOf (tentativasF maxRetries tentativas none).data = true
          exact tentativasF_all_error_prefix maxRetries tentativas none h
    refine ⟨hpref, ?_⟩
    unfold fluxoDados
    rw [if_pos hpref]
  · intro pre txt post hc hsplit hpre
    subst hc; subst hsplit
    show tentativasF maxRetries (pre ++ (Except.ok txt :: post)) none = limparRespostaLlm txt
    exact tentativasF_first_ok maxRetries txt post pre none hpre

/-- C10 witness: with a configured client and three raised attempts the
marker is produced and the caller short-circuits; with a success after one
failure the cleaned LLM text comes back. -/
theorem gerar_sql_erro_marcador_witness :
    "-- Erro".data.isPrefixOf
      (gerar_sql_com_ia true 3
        [Except.error "timeout", Except.error "timeout", Except.error "timeout"]).data = true
    ∧ fluxoDados 2025 (gerar_sql_com_ia true 3
        [Except.error "timeout", Except.error "timeout", Except.error "timeout"])
      = EtapaDados.erroGeracao ("❌ " ++ gerar_sql_com_ia true 3
          [Except.error "timeout", Except.error "timeout", Except.error "timeout"])
    ∧ gerar_sql_com_ia true 3 [Except.error "x", Except.ok "SELECT 1", Except.error "y"]
      = limparRespostaLlm "SELECT 1" := by
  have hall : ∀ a ∈ [(Except.error "timeout" : Except String String),
      Except.error "timeout", Except.error "timeout"], a.isOk = false := by
    intro a ha
    simp at ha
    subst ha
    rfl
  obtain ⟨h1, h2⟩ := (gerar_sql_erro_marcador true 3 2025
    [Except.error "timeout", Except.error "timeout", Except.error "timeout"]).1 (Or.inr hall)
  refine ⟨h1, h2, ?_⟩
  exact (gerar_sql_erro_marcador true 3 2025
      [Except.error "x", Except.ok "SELECT 1", Except.error "y"]).2
    [Except.error "x"] "SELECT 1" [Except.error "y"] rfl rfl
    (by intro a ha; simp at ha; subst ha; rfl)


theorem upperL_take (n : Nat) (l : List Char) : upperL (l.take n) = (upperL l).take n :=
  List.map_take Char.toUpper l n

theorem isPrefixOf_congr_take (pat : List Char) {a b : List Char} (hn : pat.length ≤ 6)
    (h : a.take 6 = b.take 6) : pat.isPrefixOf a = pat.isPrefixOf b := by
  rw [← Bool.coe_iff_coe, List.isPrefixOf_iff_prefix, List.isPrefixOf_iff_prefix,
    List.prefix_iff_eq_take, List.prefix_iff_eq_take]
  have ha : a.take pat.length = (a.take 6).take pat.length := by
    rw [List.take_take]
    congr 1
    omega
  have hb : b.take pat.length = (b.take 6).take pat.length := by
    rw [List.take_take]
    congr 1
    omega
  rw [ha, hb, h]

theorem ciCount_take5 {z : List Char} (h : ciPrefixL "COUNT".data z = true) :
    (upperL z).take 5 = "COUNT".data := by
  simp only [ciPrefixL, decide_eq_true_eq] at h
  rw [← upperL_take]
  exact h

theorem matchCount_ciPrefix {l r : List Char} (h : matchCount l = some r) :
    ciPrefixL "COUNT".data l = true := by
  unfold matchCount at h
  split at h
  · assumption
  · simp at h

theorem subst_take6 : ∀ (fuel : Nat) (l : List Char),
    ((upperL (substCountStarF fuel l)).take 6 = (upperL l).take 6)
    ∨ (ciPrefixL "COUNT".data (substCountStarF fuel l) = true
        ∧ ciPrefixL "COUNT".data l = true) := by
  intro fuel
  induction fuel with
  | zero => intro l; left; rfl
  | succ fuel ih =>
    intro l
    cases l with
    | nil => left; rfl
    | cons c rest =>
      cases h : matchCount (c :: rest) with
      | some r =>
        have hstep : substCountStarF (fuel + 1) (c :: rest)
            = countRepl ++ substCountStarF fuel r := by
          simp only [substCountStarF, h]
        right
        refine ⟨?_, matchCount_ciPrefix h⟩
        rw [hstep]
        simp only [ciPrefixL, decide_eq_true_eq]
        rw [List.take_append_of_le_length (by simp [countRepl])]
        rfl
      | none =>
        have hstep : substCountStarF (fuel + 1) (c :: rest)
            = c :: substCountStarF fuel rest := by
          simp only [substCountStarF, h]
        rw [hstep]
        rcases ih rest with heq | ⟨hX, hrest⟩
        · left
          show (Char.toUpper c :: upperL (substCountStarF fuel rest)).take 6
            = (Char.toUpper c :: upperL rest).take 6
          rw [List.take_succ_cons, List.take_succ_cons]
          congr 1
          have h5 : ∀ y : List Char, y.take 5 = (y.take 6).take 5 := by
            intro y
            rw [List.take_take]
            norm_num
          rw [h5 (upperL (substCountStarF fuel rest)), h5 (upperL rest), heq]
        · left
          show (Char.toUpper c :: upperL (substCountStarF fuel rest)).take 6
            = (Char.toUpper c :: upperL rest).take 6
          rw [List.take_succ_cons, List.take_succ_cons, ciCount_take5 hX, ciCount_take5 hrest]

theorem comeca_of_take5_count {z : List Char}
    (h : (upperL z).take 5 = "COUNT".data) : comecaSelectOuWith (upperL z) = false := by
  unfold comecaSelectOuWith
  have hs : "SELECT".data.isPrefixOf (upperL z) = false := by
    cases hb : "SELECT".data.isPrefixOf (upperL z) with
    | false => rfl
    | true =>
      rw [List.isPrefixOf_iff_prefix] at hb
      rcases hb with ⟨t, ht⟩
      have h2 : (upperL z).take 5 = "SELEC".data := by
        rw [← ht, List.take_append_of_le_length (by simp)]
        rfl
      rw [h] at h2
      simp at h2
  have hw : "WITH".data.isPrefixOf (upperL z) = false := by
    cases hb : "WITH".data.isPrefixOf (upperL z) with
    | false => rfl
    | true =>
      rw [List.isPrefixOf_iff_prefix] at hb
      rcases hb with ⟨t, ht⟩
      have h2 : (upperL z).take 4 = "WITH".data := by
        rw [← ht, List.take_append_of_le_length (by simp)]
        rfl
      have h4 : (upperL z).take 4 = ((upperL z).take 5).take 4 := by
        rw [List.take_take]
        norm_num
      rw [h4, h] at h2
      simp at h2
  rw [hs, hw]
  rfl

theorem comeca_substCountStar (l : List Char) :
    comecaSelectOuWith (upperL (substCountStar l)) = comecaSelectOuWith (upperL l) := by
  unfold substCountStar
  rcases subst_take6 l.length l with heq | ⟨h1, h2⟩
  · unfold comecaSelectOuWith
    rw [isPrefixOf_congr_take "SELECT".data (by decide) heq,
      isPrefixOf_congr_take "WITH".data (by decide) heq]
  · rw [comeca_of_take5_count (ciCount_take5 h1), comeca_of_take5_count (ciCount_take5 h2)]

theorem comeca_declaracao (sql : String) :
    comecaSelectOuWith (upperL (declaracaoValidada sql))
      = comecaSelectOuWith (upperL (limparSql sql.data)) := by
  unfold declaracaoValidada forcar_distinct_task_id_em_vw_todas
  split
  · exact comeca_substCountStar _
  · rfl


/-- C4: a candidate SQL whose cleaned statement (code fences stripped,
truncated at the first statement terminator) does not start with `SELECT`
or `WITH` (case-insensitive, leading whitespace stripped) is rejected with
the start-rule reason.  The `COUNT(*)` normalization applied between
cleaning and this check never changes whether the statement starts with
`SELECT`/`WITH` (`comeca_declaracao`). -/
theorem validar_exige_select_ou_with (anoAtual : Nat) (sql : String)
    (h : comecaSelectOuWith (upperL (limparSql sql.data)) = false) :
    validar_e_corrigir_sql anoAtual sql = (false, msgInicio) := by
  have h2 : comecaSelectOuWith (upperL (declaracaoValidada sql)) = false := by
    rw [comeca_declaracao]
    exact h
  simp [validar_e_corrigir_sql, h2]

/-- C4 witness: `DELETE FROM contele.contele_os` starts with neither
`SELECT` nor `WITH` and is rejected with the start-rule reason. -/
theorem validar_exige_select_ou_with_witness :
    comecaSelectOuWith (upperL (limparSql ("DELETE FROM contele.contele_os").data)) = false
    ∧ validar_e_corrigir_sql 2025 "DELETE FROM contele.contele_os" = (false, msgInicio) :=
  ⟨rfl, validar_exige_select_ou_with 2025 "DELETE FROM contele.contele_os" rfl⟩


theorem msg_get2_ne {s t : String} {a b : Char} (hs : s.data[2]? = some a)
    (ht : t.data[2]? = some b) (hab : a ≠ b) : s ≠ t := by
  intro h
  rw [h, ht] at hs
  exact hab (Option.some.inj hs).symm

theorem msgInicio_get2 : msgInicio.data[2]? = some 'S' := rfl

set_option maxRecDepth 4000 in
theorem msgColunas_get2 : msgColunas.data[2]? = some 'E' := rfl

theorem msgGenerico_get2 : msgGenerico.data[2]? = some 'Q' := rfl

set_option maxHeartbeats 2000000 in
/-- Exhaustive enumeration of the outcomes of `validar_e_corrigir_sql`,
following the order of its checks. -/
theorem validar_cases (anoAtual : Nat) (sql : String) :
    (comecaSelectOuWith (upperL (declaracaoValidada sql)) = false
      ∧ validar_e_corrigir_sql anoAtual sql = (false, msgInicio))
    ∨ (∃ c, comecaSelectOuWith (upperL (declaracaoValidada sql)) = true
        ∧ List.find? (fun cmd => containsWord cmd (upperL (declaracaoValidada sql)))
            comandosBloqueados = some c
        ∧ validar_e_corrigir_sql anoAtual sql = (false, msgComando (String.mk c)))
    ∨ (∃ y, comecaSelectOuWith (upperL (declaracaoValidada sql)) = true
        ∧ List.find? (fun cmd => containsWord cmd (upperL (declaracaoValidada sql)))
            comandosBloqueados = none
        ∧ List.find? (fun y => decide (y < 2024) || decide (anoAtual < y))
            (extrairAnos (declaracaoValidada sql)) = some y
        ∧ validar_e_corrigir_sql anoAtual sql = (false, msgAno y anoAtual))
    ∨ (∃ t, comecaSelectOuWith (upperL (declaracaoValidada sql)) = true
        ∧ List.find? (fun cmd => containsWord cmd (upperL (declaracaoValidada sql)))
            comandosBloqueados = none
        ∧ List.find? (fun y => decide (y < 2024) || decide (anoAtual < y))
            (extrairAnos (declaracaoValidada sql)) = none
        ∧ List.find? (fun t => containsL ['.'] t && !(TABELAS_PERMITIDAS.contains t))
            (extrair_tabelas (declaracaoValidada sql)) = some t
        ∧ validar_e_corrigir_sql anoAtual sql = (false, msgTabela (String.mk t)))
    ∨ (comecaSelectOuWith (upperL (declaracaoValidada sql)) = true
        ∧ List.find? (fun cmd => containsWord cmd (upperL (declaracaoValidada sql)))
            comandosBloqueados = none
        ∧ List.find? (fun y => decide (y < 2024) || decide (anoAtual < y))
            (extrairAnos (declaracaoValidada sql)) = none
        ∧ List.find? (fun t => containsL ['.'] t && !(TABELAS_PERMITIDAS.contains t))
            (extrair_tabelas (declaracaoValidada sql)) = none
        ∧ tem_colunas_invalidas (declaracaoValidada sql) = true
        ∧ validar_e_corrigir_sql anoAtual sql = (false, msgColunas))
    ∨ (comecaSelectOuWith (upperL (declaracaoValidada sql)) = true
        ∧ List.find? (fun cmd => containsWord cmd (upperL (declaracaoValidada sql)))
            comandosBloqueados = none
        ∧ List.find? (fun y => decide (y < 2024) || decide (anoAtual < y))
            (extrairAnos (declaracaoValidada sql)) = none
        ∧ List.find? (fun t => containsL ['.'] t && !(TABELAS_PERMITIDAS.contains t))
            (extrair_tabelas (declaracaoValidada sql)) = none
        ∧ tem_colunas_invalidas (declaracaoValidada sql) = false
        ∧ detectar_sql_generico (aplicarLimite (declaracaoValidada sql)
            (upperL (declaracaoValidada sql))) = true
        ∧ validar_e_corrigir_sql anoAtual sql = (false, msgGenerico))
    ∨ (comecaSelectOuWith (upperL (declaracaoValidada sql)) = true
        ∧ List.find? (fun cmd => containsWord cmd (upperL (declaracaoValidada sql)))
            comandosBloqueados = none
        ∧ List.find? (fun y => decide (y < 2024) || decide (anoAtual < y))
            (extrairAnos (declaracaoValidada sql)) = none
        ∧ List.find? (fun t => containsL ['.'] t && !(TABELAS_PERMITIDAS.contains t))
            (extrair_tabelas (declaracaoValidada sql)) = none
        ∧ tem_colunas_invalidas (declaracaoValidada sql) = false
        ∧ detectar_sql_generico (aplicarLimite (declaracaoValidada sql)
            (upperL (declaracaoValidada sql))) = false
        ∧ validar_e_corrigir_sql anoAtual sql
            = (true, String.mk (aplicarLimite (declaracaoValidada sql)
                (upperL (declaracaoValidada sql))))) := by
  by_cases h1 : comecaSelectOuWith (upperL (declaracaoValidada sql)) = true
  · cases h2 : List.find? (fun cmd => containsWord cmd (upperL (declaracaoValidada sql)))
        comandosBloqueados with
    | some c =>
      exact Or.inr (Or.inl ⟨c, h1, rfl, by unfold validar_e_corrigir_sql; rw [h1, h2]; rfl⟩)
    | none =>
      cases h3 : List.find? (fun y => decide (y < 2024) || decide (anoAtual < y))
          (extrairAnos (declaracaoValidada sql)) with
      | some y =>
        exact Or.inr (Or.inr (Or.inl ⟨y, h1, rfl, rfl,
          by unfold validar_e_corrigir_sql; rw [h1, h2, h3]; rfl⟩))
      | none =>
        cases h4 : List.find? (fun t => containsL ['.'] t && !(TABELAS_PERMITIDAS.contains t))
            (extrair_tabelas (declaracaoValidada sql)) with
        | some t =>
          exact Or.inr (Or.inr (Or.inr (Or.inl ⟨t, h1, rfl, rfl, rfl,
            by unfold validar_e_corrigir_sql; rw [h1, h2, h3, h4]; rfl⟩)))
        | none =>
          by_cases h5 : tem_colunas_invalidas (declaracaoValidada sql) = true
          · exact Or.inr (Or.inr (Or.inr (Or.inr (Or.inl ⟨h1, rfl, rfl, rfl, h5,
              by unfold validar_e_corrigir_sql; rw [h1, h2, h3, h4, h5]; rfl⟩))))
          · rw [Bool.not_eq_true] at h5
            by_cases h6 : detectar_sql_generico (aplicarLimite (declaracaoValidada sql)
                (upperL (declaracaoValidada sql))) = true
            · exact Or.inr (Or.inr (Or.inr (Or.inr (Or.inr (Or.inl ⟨h1, rfl, rfl, rfl, h5, h6,
                by unfold validar_e_corrigir_sql; rw [h1, h2, h3, h4, h5, h6]; rfl⟩)))))
            · rw [Bool.not_eq_true] at h6
              exact Or.inr (Or.inr (Or.inr (Or.inr (Or.inr (Or.inr ⟨h1, rfl, rfl, rfl, h5, h6,
                by unfold validar_e_corrigir_sql; rw [h1, h2, h3, h4, h5, h6]; rfl⟩)))))
  · rw [Bool.not_eq_true] at h1
    exact Or.inl ⟨h1, by unfold validar_e_corrigir_sql; rw [h1]; rfl⟩


/-! ## Claim C1 -/

set_option maxHeartbeats 2000000 in
/-- C1 counterexample: `DROP TABLE usuarios` contains the destructive
keyword `DROP` as a standalone token, and the validator does reject it —
but with the start-rule reason (`SQL deve começar com SELECT ou WITH`),
which does not name the command, contradicting the claim that the
rejection's reason names the command. -/
theorem validar_comando_nao_nomeado :
    containsWord "DROP".data (upperL (declaracaoValidada "DROP TABLE usuarios")) = true
    ∧ validar_e_corrigir_sql 2025 "DROP TABLE usuarios" = (false, msgInicio)
    ∧ containsL "DROP".data msgInicio.data = false := ⟨rfl, rfl, rfl⟩

set_option maxHeartbeats 2000000 in
/-- C1 (amended): a candidate SQL whose validated statement contains any of
the destructive keywords `DROP, DELETE, UPDATE, INSERT, TRUNCATE, ALTER,
CREATE, GRANT, REVOKE` as a standalone token (word-boundary match on the
upper-cased statement, hence in any letter case; occurrences inside a
longer identifier do not match) is always rejected; when the statement
passes the `SELECT`/`WITH` start check, the rejection reason names the
first blocked command found. -/
theorem validar_comando_bloqueado (anoAtual : Nat) (sql : String) (cmd : List Char)
    (hc : cmd ∈ comandosBloqueados)
    (h : containsWord cmd (upperL (declaracaoValidada sql)) = true) :
    (validar_e_corrigir_sql anoAtual sql).1 = false
    ∧ (comecaSelectOuWith (upperL (declaracaoValidada sql)) = true →
        ∃ c ∈ comandosBloqueados,
          containsWord c (upperL (declaracaoValidada sql)) = true
          ∧ (validar_e_corrigir_sql anoAtual sql).2 = msgComando (String.mk c)) := by
  have hsome : ∀ hnone : List.find?
      (fun cmd => containsWord cmd (upperL (declaracaoValidada sql))) comandosBloqueados
        = none, False := by
    intro hnone
    rw [List.find?_eq_none] at hnone
    exact (hnone cmd hc) h
  rcases validar_cases anoAtual sql with
    ⟨hneg, heq⟩ | ⟨c, h1, h2, heq⟩ | ⟨y, h1, h2, h3, heq⟩ | ⟨t, h1, h2, h3, h4, heq⟩
    | ⟨h1, h2, h3, h4, h5, heq⟩ | ⟨h1, h2, h3, h4, h5, h6, heq⟩
    | ⟨h1, h2, h3, h4, h5, h6, heq⟩
  · exact ⟨by rw [heq], fun hcomeca => absurd hcomeca (by rw [hneg]; simp)⟩
  · refine ⟨by rw [heq], fun _ => ⟨c, List.mem_of_find?_eq_some h2, ?_, by rw [heq]⟩⟩
    have hp := List.find?_some h2
    exact hp
  · exact absurd h2 (fun hh => hsome hh)
  · exact absurd h2 (fun hh => hsome hh)
  · exact absurd h2 (fun hh => hsome hh)
  · exact absurd h2 (fun hh => hsome hh)
  · exact absurd h2 (fun hh => hsome hh)

set_option maxHeartbeats 2000000 in
/-- C1 witness: `SELECT drop FROM contele.contele_os WHERE x = 1` carries
`drop` as a standalone token in non-upper case; the validator rejects it
naming `DROP`. -/
theorem validar_comando_bloqueado_witness :
    (validar_e_corrigir_sql 2025 "SELECT drop FROM contele.contele_os WHERE x = 1").1 = false
    ∧ ∃ c ∈ comandosBloqueados,
        containsWord c (upperL
          (declaracaoValidada "SELECT drop FROM contele.contele_os WHERE x = 1")) = true
        ∧ (validar_e_corrigir_sql 2025
            "SELECT drop FROM contele.contele_os WHERE x = 1").2 = msgComando (String.mk c) := by
  have hmain := validar_comando_bloqueado 2025
    "SELECT drop FROM contele.contele_os WHERE x = 1" "DROP".data
    (List.mem_cons_self _ _) rfl
  exact ⟨hmain.1, hmain.2 rfl⟩

/-! ## Claim C2 -/

set_option maxHeartbeats 2000000 in
/-- C2: (a) any identifier extracted after `FROM`/`JOIN` that is
schema-qualified (contains a dot) and not in `TABELAS_PERMITIDAS` makes the
validator reject; (b) a rejection carrying the allow-list reason always
names a dotted, non-member, extracted identifier — identifiers without a
dot (CTE aliases and other unqualified names) never trigger this rule. -/
theorem validar_allowlist (anoAtual : Nat) (sql : String) :
    (∀ t ∈ extrair_tabelas (declaracaoValidada sql),
      containsL ['.'] t = true → TABELAS_PERMITIDAS.contains t = false →
      (validar_e_corrigir_sql anoAtual sql).1 = false)
    ∧ (∀ t : String, (validar_e_corrigir_sql anoAtual sql).1 = false →
        (validar_e_corrigir_sql anoAtual sql).2 = msgTabela t →
        ∃ tl ∈ extrair_tabelas (declaracaoValidada sql),
          String.mk tl = t ∧ containsL ['.'] tl = true
          ∧ TABELAS_PERMITIDAS.contains tl = false) := by
  rcases validar_cases anoAtual sql with
    ⟨hneg, heq⟩ | ⟨c, h1, h2, heq⟩ | ⟨y, h1, h2, h3, heq⟩ | ⟨t0, h1, h2, h3, h4, heq⟩
    | ⟨h1, h2, h3, h4, h5, heq⟩ | ⟨h1, h2, h3, h4, h5, h6, heq⟩
    | ⟨h1, h2, h3, h4, h5, h6, heq⟩
  · refine ⟨fun _ _ _ _ => by rw [heq], fun t _ hmsg => ?_⟩
    rw [heq] at hmsg
    exact absurd hmsg (msg_get2_ne msgInicio_get2 (msgTabela_get2 t) (by decide))
  · refine ⟨fun _ _ _ _ => by rw [heq], fun t _ hmsg => ?_⟩
    rw [heq] at hmsg
    exact absurd hmsg (msg_get2_ne (msgComando_get2 (String.mk c)) (msgTabela_get2 t) (by decide))
  · refine ⟨fun _ _ _ _ => by rw [heq], fun t _ hmsg => ?_⟩
    rw [heq] at hmsg
    exact absurd hmsg (msg_get2_ne (msgAno_get2 y anoAtual) (msgTabela_get2 t) (by decide))
  · have hpred := List.find?_some h4
    rw [Bool.and_eq_true, Bool.not_eq_true'] at hpred
    refine ⟨fun _ _ _ _ => by rw [heq], fun t _ hmsg => ?_⟩
    rw [heq] at hmsg
    exact ⟨t0, List.mem_of_find?_eq_some h4, msgTabela_inj hmsg, hpred.1, hpred.2⟩
  · refine ⟨fun _ _ _ _ => by rw [heq], fun t _ hmsg => ?_⟩
    rw [heq] at hmsg
    exact absurd hmsg (msg_get2_ne msgColunas_get2 (msgTabela_get2 t) (by decide))
  · refine ⟨fun _ _ _ _ => by rw [heq], fun t _ hmsg => ?_⟩
    rw [heq] at hmsg
    exact absurd hmsg (msg_get2_ne msgGenerico_get2 (msgTabela_get2 t) (by decide))
  · have hrej : ∀ t ∈ extrair_tabelas (declaracaoValidada sql),
        containsL ['.'] t = true → TABELAS_PERMITIDAS.contains t = false → False := by
      intro t ht hdot hperm
      rw [List.find?_eq_none] at h4
      have := h4 t ht
      rw [hdot, hperm] at this
      simp at this
    refine ⟨fun t ht hdot hperm => absurd (hrej t ht hdot hperm) not_false, ?_⟩
    intro t hfalse _
    rw [heq] at hfalse
    simp at hfalse

set_option maxHeartbeats 2000000 in
/-- C2 witness: in `SELECT a FROM secret.tabela JOIN visitas v ON 1 = 1`
the extracted `secret.tabela` is dotted and not permitted, so the validator
rejects; the extracted `visitas` has no dot and is recovered from the
rejection reason as not being its cause. -/
theorem validar_allowlist_witness :
    (validar_e_corrigir_sql 2025 "SELECT a FROM secret.tabela JOIN visitas v ON 1 = 1").1 = false
    ∧ ∃ tl ∈ extrair_tabelas
        (declaracaoValidada "SELECT a FROM secret.tabela JOIN visitas v ON 1 = 1"),
        String.mk tl = "secret.tabela" ∧ containsL ['.'] tl = true
        ∧ TABELAS_PERMITIDAS.contains tl = false := by
  have hmain := validar_allowlist 2025 "SELECT a FROM secret.tabela JOIN visitas v ON 1 = 1"
  have hmem : "secret.tabela".data ∈ extrair_tabelas
      (declaracaoValidada "SELECT a FROM secret.tabela JOIN visitas v ON 1 = 1") := by
    decide
  have h1 := hmain.1 "secret.tabela".data hmem rfl rfl
  have h2 := hmain.2 "secret.tabela" h1 rfl
  exact ⟨h1, h2⟩


/-! ## Claim C8 -/

set_option maxHeartbeats 2000000 in
/-- C8 counterexample: at validation-time year 2026 (`ANO_ATUAL = 2026`),
the year literal `2024` lies outside the claimed accepted range
`[current_year - 1, current_year] = [2025, 2026]`, yet the validator
accepts the query unchanged: the code's lower bound is the constant `2024`
(line 1061), not `current_year - 1`. -/
theorem validar_ano_2024_aceito :
    extrairAnos (declaracaoValidada
      "SELECT os FROM contele.contele_os WHERE created_at >= '2024-01-01' LIMIT 10")
      = [2024]
    ∧ (2024 < 2026 - 1)
    ∧ validar_e_corrigir_sql 2026
        "SELECT os FROM contele.contele_os WHERE created_at >= '2024-01-01' LIMIT 10"
      = (true, "SELECT os FROM contele.contele_os WHERE created_at >= '2024-01-01' LIMIT 10")
    := ⟨rfl, by norm_num, rfl⟩

set_option maxHeartbeats 2000000 in
/-- C8 (amended): for a candidate SQL that passes the start check and the
destructive-keyword check, the validator rejects with the year reason
exactly when some extracted year literal (a four-digit `20xx` year followed
by a dash or slash, at a word boundary) lies outside `[2024, ANO_ATUAL]` —
the lower bound is the constant 2024, which equals `ANO_ATUAL - 1` only
when `ANO_ATUAL = 2025`. -/
theorem validar_ano_regra (anoAtual : Nat) (sql : String)
    (hcomeca : comecaSelectOuWith (upperL (declaracaoValidada sql)) = true)
    (hcmds : ∀ cmd ∈ comandosBloqueados,
      containsWord cmd (upperL (declaracaoValidada sql)) = false) :
    ((validar_e_corrigir_sql anoAtual sql).1 = false
      ∧ ∃ y, (validar_e_corrigir_sql anoAtual sql).2 = msgAno y anoAtual)
    ↔ ∃ y ∈ extrairAnos (declaracaoValidada sql), (y < 2024 ∨ anoAtual < y) := by
  have hnoanos : ∀ hn : List.find? (fun y => decide (y < 2024) || decide (anoAtual < y))
      (extrairAnos (declaracaoValidada sql)) = none,
      ¬ ∃ y ∈ extrairAnos (declaracaoValidada sql), (y < 2024 ∨ anoAtual < y) := by
    intro hn ⟨y, hy, hcond⟩
    rw [List.find?_eq_none] at hn
    have := hn y hy
    rcases hcond with hc | hc <;> simp [hc] at this
  rcases validar_cases anoAtual sql with
    ⟨hneg, heq⟩ | ⟨c, h1, h2, heq⟩ | ⟨y, h1, h2, h3, heq⟩ | ⟨t0, h1, h2, h3, h4, heq⟩
    | ⟨h1, h2, h3, h4, h5, heq⟩ | ⟨h1, h2, h3, h4, h5, h6, heq⟩
    | ⟨h1, h2, h3, h4, h5, h6, heq⟩
  · rw [hneg] at hcomeca
    simp at hcomeca
  · have hcw := List.find?_some h2
    have hcm := List.mem_of_find?_eq_some h2
    have := hcmds c hcm
    rw [this] at hcw
    simp at hcw
  · constructor
    · intro _
      have hp := List.find?_some h3
      have hmem := List.mem_of_find?_eq_some h3
      rw [Bool.or_eq_true, decide_eq_true_eq, decide_eq_true_eq] at hp
      exact ⟨y, hmem, hp⟩
    · intro _
      exact ⟨by rw [heq], y, by rw [heq]⟩
  · rw [heq]
    constructor
    · intro ⟨_, y, hmsg⟩
      exact absurd hmsg.symm (msg_get2_ne (msgAno_get2 y anoAtual)
        (msgTabela_get2 (String.mk t0)) (by decide))
    · intro hr
      exact absurd hr (hnoanos h3)
  · rw [heq]
    constructor
    · intro ⟨_, y, hmsg⟩
      exact absurd hmsg.symm (msg_get2_ne (msgAno_get2 y anoAtual) msgColunas_get2 (by decide))
    · intro hr
      exact absurd hr (hnoanos h3)
  · rw [heq]
    constructor
    · intro ⟨_, y, hmsg⟩
      exact absurd hmsg.symm (msg_get2_ne (msgAno_get2 y anoAtual) msgGenerico_get2 (by decide))
    · intro hr
      exact absurd hr (hnoanos h3)
  · rw [heq]
    constructor
    · intro ⟨hfalse, _⟩
      simp at hfalse
    · intro hr
      exact absurd hr (hnoanos h3)

set_option maxHeartbeats 2000000 in
/-- C8 witness: at `ANO_ATUAL = 2025` the year `2023` is outside
`[2024, 2025]` and the validator rejects with the year reason. -/
theorem validar_ano_regra_witness :
    (validar_e_corrigir_sql 2025
      "SELECT os FROM contele.contele_os WHERE created_at >= '2023-01-01' LIMIT 10").1 = false
    ∧ ∃ y, (validar_e_corrigir_sql 2025
        "SELECT os FROM contele.contele_os WHERE created_at >= '2023-01-01' LIMIT 10").2
        = msgAno y 2025 := by
  refine (validar_ano_regra 2025
    "SELECT os FROM contele.contele_os WHERE created_at >= '2023-01-01' LIMIT 10"
    rfl ?_).mpr ⟨2023, by decide, Or.inl (by norm_num)⟩
  decide


/-! ## Structure of the `LIMIT` matcher (shared by C5, C6) -/

theorem takeWhile_append_drop_len (l : List Char) (p : Char → Bool) :
    l.takeWhile p ++ l.drop (l.takeWhile p).length = l := by
  have hp : l.takeWhile p <+: l := List.takeWhile_prefix p
  rw [List.prefix_iff_eq_take] at hp
  nth_rewrite 1 [hp]
  exact List.take_append_drop _ _

theorem char_ne_of_toNat_ne {a b : Char} (h : a.toNat ≠ b.toNat) : a ≠ b :=
  fun hab => h (by rw [hab])

theorem matchLimit_head_upper {c : Char} {t : List Char} {n : Nat} {r : List Char}
    (h : matchLimitNum (c :: t) = some (n, r)) : Char.toUpper c = 'L' := by
  unfold matchLimitNum at h
  split at h
  · rename_i hci
    simp only [ciPrefixL, decide_eq_true_eq] at hci
    have hci5 : upperL ((c :: t).take 5) = "LIMIT".data := hci
    rw [List.take_succ_cons] at hci5
    exact (List.cons.injEq _ _ _ _ ▸ hci5).1
  · simp at h

theorem matchLimit_none_of_head {c : Char} (t : List Char)
    (h : Char.toUpper c ≠ 'L') : matchLimitNum (c :: t) = none := by
  unfold matchLimitNum
  rw [if_neg]
  intro hci
  simp only [ciPrefixL, decide_eq_true_eq] at hci
  have hci5 : upperL ((c :: t).take 5) = "LIMIT".data := hci
  rw [List.take_succ_cons] at hci5
  exact h (List.cons.injEq _ _ _ _ ▸ hci5).1

theorem matchLimit_decomp {l : List Char} {n : Nat} {r : List Char}
    (h : matchLimitNum l = some (n, r)) :
    ∃ span, l = span ++ r ∧ span ≠ []
      ∧ ∀ ch ∈ span, (Char.toUpper ch ∈ "LIMIT".data ∨ isPyWs ch = true
          ∨ ch.isDigit = true) := by
  unfold matchLimitNum at h
  split at h
  · rename_i hci
    simp only [ciPrefixL, decide_eq_true_eq] at hci
    split at h
    · simp at h
    · rename_i hws
      split at h
      · simp at h
      · rename_i hds
        rw [Option.some.injEq, Prod.mk.injEq] at h
        obtain ⟨hn, hr⟩ := h
        refine ⟨l.take 5 ++ ((l.drop 5).takeWhile isPyWs
          ++ ((l.drop 5).dropWhile isPyWs).takeWhile Char.isDigit), ?_, ?_, ?_⟩
        · rw [← hr]
          rw [List.append_assoc, List.append_assoc]
          rw [takeWhile_append_drop_len (((l.drop 5).dropWhile isPyWs)) Char.isDigit]
          rw [List.takeWhile_append_dropWhile]
          exact (List.take_append_drop 5 l).symm
        · intro hsp
          have hci5 : upperL (l.take 5) = "LIMIT".data := hci
          have h5 : (l.take 5).length = 5 := by
            have := congrArg List.length hci5
            simpa [upperL] using this
          have : (l.take 5) = [] := by
            rcases List.append_eq_nil.mp hsp with ⟨h1, _⟩
            exact h1
          rw [this] at h5
          simp at h5
        · intro ch hch
          rw [List.mem_append, List.mem_append] at hch
          rcases hch with hch | hch | hch
          · left
            have hci5 : upperL (l.take 5) = "LIMIT".data := hci
            have : Char.toUpper ch ∈ upperL (l.take 5) := List.mem_map_of_mem _ hch
            rw [hci5] at this
            exact this
          · right; left
            exact List.mem_takeWhile_imp hch
          · right; right
            exact List.mem_takeWhile_imp hch
  · simp at h

theorem substLimiteF_skip : ∀ (p1 : List Char) (fuel : Nat) (y : List Char),
    (∀ ch ∈ p1, Char.toUpper ch ≠ 'L') → p1.length ≤ fuel →
    substLimiteF fuel (p1 ++ y) = p1 ++ substLimiteF (fuel - p1.length) y := by
  intro p1
  induction p1 with
  | nil => intro fuel y _ _; simp
  | cons ch p1 ih =>
    intro fuel y hch hlen
    cases fuel with
    | zero => simp at hlen
    | succ f =>
      have hnone := matchLimit_none_of_head (p1 ++ y) (hch ch (List.mem_cons_self _ _))
      show substLimiteF (f + 1) (ch :: (p1 ++ y)) = (ch :: p1) ++ substLimiteF _ y
      rw [substLimiteF, hnone]
      rw [ih f y (fun a ha => hch a (List.mem_cons_of_mem _ ha)) (by simpa using hlen)]
      simp [Nat.succ_sub_one]

theorem containsL_of_append_no_head (h0 : Char) (patTail A B : List Char)
    (hA : ∀ ch ∈ A, ch ≠ h0)
    (h : containsL (h0 :: patTail) (A ++ B) = true) :
    containsL (h0 :: patTail) B = true := by
  induction A with
  | nil => simpa using h
  | cons a A ih =>
    rw [List.cons_append, containsL, Bool.or_eq_true] at h
    rcases h with h | h
    · rw [List.isPrefixOf_iff_prefix] at h
      have := (List.cons_prefix_iff.mp h).1
      exact absurd this.symm (hA a (List.mem_cons_self _ _))
    · exact ih (fun ch hch => hA ch (List.mem_cons_of_mem _ hch)) h


theorem char_eq_of_toNat_eq (y : Char) {x : Char} (h : x.toNat = y.toNat) : x = y := by
  rw [← Char.ofNat_toNat x, ← Char.ofNat_toNat y, h]

theorem isPyWs_iff_toNat (x : Char) : isPyWs x = true ↔
    (x.toNat = 32 ∨ x.toNat = 9 ∨ x.toNat = 10 ∨ x.toNat = 13
      ∨ x.toNat = 11 ∨ x.toNat = 12) := by
  simp only [isPyWs, Bool.or_eq_true, decide_eq_true_eq]
  constructor
  · rintro (((((h | h) | h) | h) | h) | h) <;> subst h <;> decide
  · rintro (h | h | h | h | h | h)
    · exact Or.inl (Or.inl (Or.inl (Or.inl (Or.inl (char_eq_of_toNat_eq ' ' h)))))
    · exact Or.inl (Or.inl (Or.inl (Or.inl (Or.inr (char_eq_of_toNat_eq '\t' h)))))
    · exact Or.inl (Or.inl (Or.inl (Or.inr (char_eq_of_toNat_eq '\n' h))))
    · exact Or.inl (Or.inl (Or.inr (char_eq_of_toNat_eq '\r' h)))
    · exact Or.inl (Or.inr (char_eq_of_toNat_eq (Char.ofNat 11) h))
    · exact Or.inr (char_eq_of_toNat_eq (Char.ofNat 12) h)

theorem isDigit_iff_toNat (x : Char) : x.isDigit = true ↔
    (48 ≤ x.toNat ∧ x.toNat ≤ 57) := by
  simp only [Char.isDigit, Bool.and_eq_true, decide_eq_true_eq]
  exact Iff.rfl

theorem toUpper_toNat_of_lower {c : Char} (h : 97 ≤ c.toNat ∧ c.toNat ≤ 122) :
    (Char.toUpper c).toNat = c.toNat - 32 := by
  simp only [Char.toUpper]
  rw [if_pos (by omega)]
  exact charToNat_ofNat _ (by left; omega)

theorem toUpper_eq_of_not_lower {c : Char} (h : ¬(97 ≤ c.toNat ∧ c.toNat ≤ 122)) :
    Char.toUpper c = c := by
  simp only [Char.toUpper]
  rw [if_neg (by omega)]

theorem isPyWs_toUpper (c : Char) : isPyWs (Char.toUpper c) = isPyWs c := by
  by_cases h : 97 ≤ c.toNat ∧ c.toNat ≤ 122
  · have hup := toUpper_toNat_of_lower h
    have h1 : isPyWs (Char.toUpper c) = false := by
      rw [Bool.eq_false_iff]
      intro hw
      rw [isPyWs_iff_toNat, hup] at hw
      omega
    have h2 : isPyWs c = false := by
      rw [Bool.eq_false_iff]
      intro hw
      rw [isPyWs_iff_toNat] at hw
      omega
    rw [h1, h2]
  · rw [toUpper_eq_of_not_lower h]

theorem isDigit_toUpper (c : Char) : (Char.toUpper c).isDigit = c.isDigit := by
  by_cases h : 97 ≤ c.toNat ∧ c.toNat ≤ 122
  · have hup := toUpper_toNat_of_lower h
    have h1 : (Char.toUpper c).isDigit = false := by
      rw [Bool.eq_false_iff]
      intro hw
      rw [isDigit_iff_toNat, hup] at hw
      omega
    have h2 : c.isDigit = false := by
      rw [Bool.eq_false_iff]
      intro hw
      rw [isDigit_iff_toNat] at hw
      omega
    rw [h1, h2]
  · rw [toUpper_eq_of_not_lower h]

theorem toUpper_digit {c : Char} (h : c.isDigit = true) : Char.toUpper c = c := by
  rw [isDigit_iff_toNat] at h
  exact toUpper_eq_of_not_lower (by omega)

theorem takeWhile_pred_congr {p q : Char → Bool} (hp : ∀ a, p a = q a) :
    ∀ l : List Char, l.takeWhile p = l.takeWhile q := by
  intro l
  induction l with
  | nil => rfl
  | cons c t ih => simp [List.takeWhile_cons, hp c, ih]

theorem dropWhile_pred_congr {p q : Char → Bool} (hp : ∀ a, p a = q a) :
    ∀ l : List Char, l.dropWhile p = l.dropWhile q := by
  intro l
  induction l with
  | nil => rfl
  | cons c t ih => simp [List.dropWhile_cons, hp c, ih]

theorem takeWhile_upperL (p : Char → Bool) (hp : ∀ c, p (Char.toUpper c) = p c)
    (l : List Char) : (upperL l).takeWhile p = upperL (l.takeWhile p) := by
  rw [upperL, List.takeWhile_map]
  rw [takeWhile_pred_congr (p := p ∘ Char.toUpper) (q := p) (fun a => hp a) l]
  rfl

theorem dropWhile_upperL (p : Char → Bool) (hp : ∀ c, p (Char.toUpper c) = p c)
    (l : List Char) : (upperL l).dropWhile p = upperL (l.dropWhile p) := by
  rw [upperL, List.dropWhile_map]
  rw [dropWhile_pred_congr (p := p ∘ Char.toUpper) (q := p) (fun a => hp a) l]
  rfl

theorem isEmpty_upperL (l : List Char) : (upperL l).isEmpty = l.isEmpty := by
  cases l <;> rfl

theorem upperL_digits {l : List Char} (h : ∀ c ∈ l, c.isDigit = true) :
    upperL l = l := by
  rw [upperL]
  have : List.map Char.toUpper l = List.map id l :=
    List.map_congr_left (fun a ha => toUpper_digit (h a ha))
  rw [this, List.map_id]

theorem ciPrefixL_upperL (pat l : List Char) :
    ciPrefixL pat (upperL l) = ciPrefixL pat l := by
  simp only [ciPrefixL, upperL]
  have hlist : List.map Char.toUpper (List.take pat.length (List.map Char.toUpper l))
      = List.map Char.toUpper (List.take pat.length l) := by
    rw [← List.map_take, List.map_map]
    exact List.map_congr_left (fun a _ => toUpper_idem a)
  exact congrArg (fun z : List Char => decide (z = pat)) hlist

theorem matchLimit_upper (l : List Char) :
    matchLimitNum (upperL l)
      = Option.map (fun pr => (pr.1, upperL pr.2)) (matchLimitNum l) := by
  unfold matchLimitNum
  rw [ciPrefixL_upperL]
  by_cases h1 : ciPrefixL "LIMIT".data l = true
  · rw [if_pos h1, if_pos h1]
    have hdrop : (upperL l).drop 5 = upperL (l.drop 5) := by
      rw [upperL, upperL, List.map_drop]
    rw [hdrop, takeWhile_upperL isPyWs isPyWs_toUpper, isEmpty_upperL]
    by_cases h2 : ((l.drop 5).takeWhile isPyWs).isEmpty = true
    · rw [if_pos h2, if_pos h2]
      rfl
    · rw [if_neg h2, if_neg h2]
      rw [dropWhile_upperL isPyWs isPyWs_toUpper,
        takeWhile_upperL Char.isDigit isDigit_toUpper, isEmpty_upperL]
      by_cases h3 : (((l.drop 5).dropWhile isPyWs).takeWhile Char.isDigit).isEmpty = true
      · rw [if_pos h3, if_pos h3]
        rfl
      · rw [if_neg h3, if_neg h3]
        have hds : upperL (((l.drop 5).dropWhile isPyWs).takeWhile Char.isDigit)
            = ((l.drop 5).dropWhile isPyWs).takeWhile Char.isDigit :=
          upperL_digits (fun c hc => List.mem_takeWhile_imp hc)
        rw [hds, Option.map_some', Option.some.injEq, Prod.mk.injEq]
        refine ⟨rfl, ?_⟩
        show (upperL (List.dropWhile isPyWs (List.drop 5 l))).drop
            (List.takeWhile Char.isDigit (List.dropWhile isPyWs (List.drop 5 l))).length
          = upperL ((List.dropWhile isPyWs (List.drop 5 l)).drop
            (List.takeWhile Char.isDigit (List.dropWhile isPyWs (List.drop 5 l))).length)
        simp only [upperL]
        rw [List.map_drop]
  · rw [if_neg h1, if_neg h1]
    rfl

theorem temLimitMatch_upper (l : List Char) :
    temLimitMatch (upperL l) = temLimitMatch l := by
  induction l with
  | nil => rfl
  | cons c t ih =>
    show ((matchLimitNum (upperL (c :: t))).isSome || temLimitMatch (upperL t))
      = ((matchLimitNum (c :: t)).isSome || temLimitMatch t)
    rw [matchLimit_upper]
    cases hm : matchLimitNum (c :: t) <;> simp [ih]

theorem temLimit_of_primeiro {l : List Char} {n : Nat}
    (h : primeiroLimiteAux l = some n) : temLimitMatch l = true := by
  induction l with
  | nil => simp [primeiroLimiteAux] at h
  | cons c t ih =>
    rw [primeiroLimiteAux] at h
    rw [temLimitMatch]
    cases hm : matchLimitNum (c :: t) with
    | some pr => simp [hm]
    | none =>
      rw [hm] at h
      simp only [hm, Option.isSome_none, Bool.false_or]
      exact ih h

theorem primeiroLimite_contains {l : List Char} {n : Nat}
    (h : primeiroLimiteAux l = some n) :
    containsL "LIMIT".data (upperL l) = true := by
  induction l with
  | nil => simp [primeiroLimiteAux] at h
  | cons c t ih =>
    rw [primeiroLimiteAux] at h
    cases hm : matchLimitNum (c :: t) with
    | some pr =>
      have hci : ciPrefixL "LIMIT".data (c :: t) = true := by
        unfold matchLimitNum at hm
        split at hm
        · assumption
        · simp at hm
      simp only [ciPrefixL, decide_eq_true_eq] at hci
      have hci5 : upperL ((c :: t).take 5) = "LIMIT".data := hci
      apply containsL_of_isPrefixOf
      rw [List.isPrefixOf_iff_prefix]
      have htk : (upperL (c :: t)).take 5 = upperL ((c :: t).take 5) := by
        simp only [upperL]
        rw [← List.map_take]
      rw [← hci5, ← htk]
      exact List.take_prefix _ _
    | none =>
      rw [hm] at h
      have := ih h
      exact containsL_cons_of_tail _ this

theorem containsL_limitRepl_subst : ∀ (fuel : Nat) (x : List Char),
    x.length ≤ fuel → temLimitMatch x = true →
    containsL limitRepl (substLimiteF fuel x) = true := by
  intro fuel
  induction fuel with
  | zero =>
    intro x hx h
    interval_cases hlen : x.length
    · rw [List.length_eq_zero] at hlen
      subst hlen
      simp [temLimitMatch] at h
  | succ fuel ih =>
    intro x hx h
    cases x with
    | nil => simp [temLimitMatch] at h
    | cons c t =>
      rw [substLimiteF]
      cases hm : matchLimitNum (c :: t) with
      | some pr =>
        apply containsL_of_isPrefixOf
        rw [List.isPrefixOf_iff_prefix]
        exact List.prefix_append _ _
      | none =>
        rw [temLimitMatch, hm] at h
        simp only [Option.isSome_none, Bool.false_or] at h
        exact containsL_cons_of_tail c (ih t (by simpa using hx) h)

theorem temCountStar_containsRepl : ∀ (fuel : Nat) (x : List Char),
    x.length ≤ fuel → temCountStar x = true →
    containsL countRepl (substCountStarF fuel x) = true := by
  intro fuel
  induction fuel with
  | zero =>
    intro x hx h
    have : x = [] := by
      rw [← List.length_eq_zero]
      omega
    subst this
    simp [temCountStar] at h
  | succ fuel ih =>
    intro x hx h
    cases x with
    | nil => simp [temCountStar] at h
    | cons c t =>
      rw [substCountStarF]
      cases hm : matchCount (c :: t) with
      | some r =>
        apply containsL_of_isPrefixOf
        rw [List.isPrefixOf_iff_prefix]
        exact List.prefix_append _ _
      | none =>
        rw [temCountStar, hm] at h
        simp only [Option.isSome_none, Bool.false_or] at h
        exact containsL_cons_of_tail c (ih t (by simpa using hx) h)

set_option maxHeartbeats 1000000 in
/-- On acceptance, the corrected SQL is the `LIMIT`-enforcement step applied
to the validated statement. -/
theorem validar_aceita_forma (anoAtual : Nat) (sql : String)
    (h : (validar_e_corrigir_sql anoAtual sql).1 = true) :
    validar_e_corrigir_sql anoAtual sql
      = (true, String.mk (aplicarLimite (declaracaoValidada sql)
          (upperL (declaracaoValidada sql)))) := by
  rcases validar_cases anoAtual sql with
    ⟨_, heq⟩ | ⟨c, _, _, heq⟩ | ⟨y, _, _, _, heq⟩ | ⟨t0, _, _, _, _, heq⟩
    | ⟨_, _, _, _, _, heq⟩ | ⟨_, _, _, _, _, _, heq⟩ | ⟨_, _, _, _, _, _, heq⟩
  all_goals rw [heq] at h ⊢
  all_goals first
    | rfl
    | simp at h


theorem countRepl_no_L : ∀ ch ∈ countRepl, Char.toUpper ch ≠ 'L' := by decide

theorem containsL_countRepl_substLimiteF : ∀ (fuel : Nat) (x : List Char),
    x.length ≤ fuel → containsL countRepl x = true →
    containsL countRepl (substLimiteF fuel x) = true := by
  intro fuel
  induction fuel with
  | zero =>
    intro x hx h
    have : x = [] := by rw [← List.length_eq_zero]; omega
    subst this
    exact absurd h (by decide)
  | succ fuel ih =>
    intro x hx h
    cases x with
    | nil => exact absurd h (by decide)
    | cons c t =>
      rw [containsL, Bool.or_eq_true] at h
      rcases h with hhead | htail
      · rw [List.isPrefixOf_iff_prefix] at hhead
        obtain ⟨y, hy⟩ := hhead
        have h23 : countRepl.length ≤ fuel + 1 := by
          have := congrArg List.length hy
          simp at this
          simp [List.length_cons] at hx ⊢
          omega
        rw [← hy, substLimiteF_skip countRepl (fuel + 1) y countRepl_no_L h23]
        exact containsL_of_isPrefixOf (by
          rw [List.isPrefixOf_iff_prefix]; exact List.prefix_append _ _)
      · cases hm : matchLimitNum (c :: t) with
        | some pr =>
          obtain ⟨n, r⟩ := pr
          have hstep : substLimiteF (fuel + 1) (c :: t) = limitRepl ++ substLimiteF fuel r := by
            simp only [substLimiteF, hm]
          rw [hstep]
          obtain ⟨span, hspan, hne, hchars⟩ := matchLimit_decomp hm
          cases span with
          | nil => exact absurd rfl hne
          | cons c0 span2 =>
            rw [List.cons_append, List.cons.injEq] at hspan
            obtain ⟨hc0, ht⟩ := hspan
            have hcr : countRepl = 'C' :: "OUNT(DISTINCT task_id)".data := rfl
            rw [ht] at htail
            rw [hcr] at htail
            have hA : ∀ ch ∈ span2, ch ≠ 'C' := by
              intro ch hch hchC
              subst hchC
              rcases hchars 'C' (List.mem_cons_of_mem _ hch) with hh | hh | hh
              · exact absurd hh (by decide)
              · exact absurd hh (by decide)
              · exact absurd hh (by decide)
            have hr := containsL_of_append_no_head 'C' _ span2 r hA htail
            rw [← hcr] at hr
            have hrlen : r.length ≤ fuel := by
              have := congrArg List.length ht
              simp [List.length_append] at this
              simp [List.length_cons] at hx
              omega
            exact containsL_append_right _ (ih r hrlen hr)
        | none =>
          have hstep : substLimiteF (fuel + 1) (c :: t) = c :: substLimiteF fuel t := by
            simp only [substLimiteF, hm]
          rw [hstep]
          exact containsL_cons_of_tail c (ih t (by simpa using hx) htail)

/-! ## Claim C5 -/

set_option maxHeartbeats 2000000 in
/-- C5: for a candidate SQL that references `contele.vw_todas_os_respostas`
and carries a bare `COUNT(*)`, if the validator accepts, the corrected SQL
contains `COUNT(DISTINCT task_id)` (placed by the `re.sub` embedding
`substCountStar`, which rewrites every `COUNT(*)` occurrence and leaves
every other character unchanged); when additionally the statement has no
`LIMIT`, the corrected SQL is exactly the rewritten statement with
`LIMIT 100` appended — both corrections are present, neither loses the
other. -/
theorem validar_count_star (anoAtual : Nat) (sql : String)
    (hvw : containsL vwTodasName (limparSql sql.data) = true)
    (hcs : temCountStar (limparSql sql.data) = true)
    (hacc : (validar_e_corrigir_sql anoAtual sql).1 = true) :
    containsL countRepl ((validar_e_corrigir_sql anoAtual sql).2.data) = true
    ∧ (containsL "LIMIT".data (upperL (declaracaoValidada sql)) = false →
        (validar_e_corrigir_sql anoAtual sql).2.data
          = substCountStar (limparSql sql.data) ++ "\nLIMIT 100".data
        ∧ containsL "LIMIT 100".data ((validar_e_corrigir_sql anoAtual sql).2.data) = true) := by
  have hform := validar_aceita_forma anoAtual sql hacc
  have hdecl : declaracaoValidada sql = substCountStar (limparSql sql.data) := by
    unfold declaracaoValidada forcar_distinct_task_id_em_vw_todas
    rw [if_pos hvw]
  have hrepl : containsL countRepl (declaracaoValidada sql) = true := by
    rw [hdecl]
    exact temCountStar_containsRepl _ _ le_rfl hcs
  have h2data : (validar_e_corrigir_sql anoAtual sql).2.data
      = aplicarLimite (declaracaoValidada sql) (upperL (declaracaoValidada sql)) := by
    rw [hform]
  constructor
  · rw [h2data]
    unfold aplicarLimite
    by_cases hl : containsL "LIMIT".data (upperL (declaracaoValidada sql)) = false
    · rw [if_pos (show (!containsL "LIMIT".data (upperL (declaracaoValidada sql))) = true
        by rw [hl]; rfl)]
      exact containsL_append_left _ hrepl
    · rw [Bool.not_eq_false] at hl
      rw [if_neg (show ¬((!containsL "LIMIT".data (upperL (declaracaoValidada sql))) = true)
        by rw [hl]; simp)]
      cases hpl : primeiroLimite (upperL (declaracaoValidada sql)) with
      | none => exact hrepl
      | some n =>
        show containsL countRepl (if 1000 < n then substLimite1000 (declaracaoValidada sql)
          else declaracaoValidada sql) = true
        by_cases hn : 1000 < n
        · rw [if_pos hn]
          exact containsL_countRepl_substLimiteF _ _ le_rfl hrepl
        · rw [if_neg hn]
          exact hrepl
  · intro hnl
    rw [h2data]
    unfold aplicarLimite
    rw [if_pos (show (!containsL "LIMIT".data (upperL (declaracaoValidada sql))) = true
      by rw [hnl]; rfl)]
    refine ⟨by rw [hdecl], ?_⟩
    exact containsL_append_right _ (by decide)

set_option maxHeartbeats 4000000 in
/-- C5 witness: `SELECT COUNT(*) FROM contele.vw_todas_os_respostas` is
rewritten to `COUNT(DISTINCT task_id)` and receives `LIMIT 100`. -/
theorem validar_count_star_witness :
    (validar_e_corrigir_sql 2025 "SELECT COUNT(*) FROM contele.vw_todas_os_respostas").2.data
      = substCountStar (limparSql ("SELECT COUNT(*) FROM contele.vw_todas_os_respostas").data)
        ++ "\nLIMIT 100".data
    ∧ containsL countRepl
        ((validar_e_corrigir_sql 2025
          "SELECT COUNT(*) FROM contele.vw_todas_os_respostas").2.data) = true := by
  have h := validar_count_star 2025 "SELECT COUNT(*) FROM contele.vw_todas_os_respostas"
    rfl rfl rfl
  exact ⟨(h.2 rfl).1, h.1⟩

/-! ## Claim C6 -/

set_option maxHeartbeats 2000000 in
/-- C6: for every candidate SQL the validator accepts: if the statement has
no `LIMIT`, the corrected SQL is the statement with `LIMIT 100` appended;
if its first `LIMIT n` has `n > 1000`, every `LIMIT k` is replaced by
`LIMIT 1000` (so the corrected SQL contains `LIMIT 1000`); if
`1 ≤ n ≤ 1000`, the statement — and hence its limit — is preserved
unchanged. -/
theorem validar_limite (anoAtual : Nat) (sql : String)
    (hacc : (validar_e_corrigir_sql anoAtual sql).1 = true) :
    (containsL "LIMIT".data (upperL (declaracaoValidada sql)) = false →
      (validar_e_corrigir_sql anoAtual sql).2.data
        = declaracaoValidada sql ++ "\nLIMIT 100".data)
    ∧ (∀ n, primeiroLimite (upperL (declaracaoValidada sql)) = some n → 1000 < n →
        (validar_e_corrigir_sql anoAtual sql).2.data
          = substLimite1000 (declaracaoValidada sql)
        ∧ containsL limitRepl ((validar_e_corrigir_sql anoAtual sql).2.data) = true)
    ∧ (∀ n, primeiroLimite (upperL (declaracaoValidada sql)) = some n →
        1 ≤ n → n ≤ 1000 →
        (validar_e_corrigir_sql anoAtual sql).2.data = declaracaoValidada sql) := by
  have hform := validar_aceita_forma anoAtual sql hacc
  have h2data : (validar_e_corrigir_sql anoAtual sql).2.data
      = aplicarLimite (declaracaoValidada sql) (upperL (declaracaoValidada sql)) := by
    rw [hform]
  refine ⟨?_, ?_, ?_⟩
  · intro hnl
    rw [h2data]
    unfold aplicarLimite
    rw [if_pos (show (!containsL "LIMIT".data (upperL (declaracaoValidada sql))) = true
      by rw [hnl]; rfl)]
  · intro n hpl hn
    have hcon : containsL "LIMIT".data (upperL (declaracaoValidada sql)) = true := by
      have := primeiroLimite_contains hpl
      rwa [upperL_idem] at this
    have hout : (validar_e_corrigir_sql anoAtual sql).2.data
        = substLimite1000 (declaracaoValidada sql) := by
      rw [h2data]
      unfold aplicarLimite
      rw [if_neg (show ¬((!containsL "LIMIT".data (upperL (declaracaoValidada sql))) = true)
        by rw [hcon]; simp)]
      rw [hpl]
      show (if 1000 < n then substLimite1000 (declaracaoValidada sql)
        else declaracaoValidada sql) = substLimite1000 (declaracaoValidada sql)
      rw [if_pos hn]
    refine ⟨hout, ?_⟩
    rw [hout]
    have htm : temLimitMatch (declaracaoValidada sql) = true := by
      have := temLimit_of_primeiro hpl
      rwa [temLimitMatch_upper] at this
    exact containsL_limitRepl_subst _ _ le_rfl htm
  · intro n hpl h1 h1000
    have hcon : containsL "LIMIT".data (upperL (declaracaoValidada sql)) = true := by
      have := primeiroLimite_contains hpl
      rwa [upperL_idem] at this
    rw [h2data]
    unfold aplicarLimite
    rw [if_neg (show ¬((!containsL "LIMIT".data (upperL (declaracaoValidada sql))) = true)
      by rw [hcon]; simp)]
    rw [hpl]
    show (if 1000 < n then substLimite1000 (declaracaoValidada sql)
      else declaracaoValidada sql) = declaracaoValidada sql
    rw [if_neg (by omega)]

set_option maxHeartbeats 4000000 in
/-- C6 witness: the three regimes at concrete accepted inputs — no `LIMIT`
(appends `LIMIT 100`), `LIMIT 2000` (clamped to `LIMIT 1000`), `LIMIT 500`
(preserved unchanged). -/
theorem validar_limite_witness :
    (validar_e_corrigir_sql 2025 "SELECT a FROM contele.contele_os WHERE b = 1").2.data
      = declaracaoValidada "SELECT a FROM contele.contele_os WHERE b = 1"
        ++ "\nLIMIT 100".data
    ∧ (validar_e_corrigir_sql 2025
        "SELECT a FROM contele.contele_os WHERE b = 1 LIMIT 2000").2.data
      = substLimite1000
          (declaracaoValidada "SELECT a FROM contele.contele_os WHERE b = 1 LIMIT 2000")
    ∧ containsL limitRepl ((validar_e_corrigir_sql 2025
        "SELECT a FROM contele.contele_os WHERE b = 1 LIMIT 2000").2.data) = true
    ∧ (validar_e_corrigir_sql 2025
        "SELECT a FROM contele.contele_os WHERE b = 1 LIMIT 500").2.data
      = declaracaoValidada "SELECT a FROM contele.contele_os WHERE b = 1 LIMIT 500" := by
  refine ⟨(validar_limite 2025 "SELECT a FROM contele.contele_os WHERE b = 1" rfl).1 rfl,
    ?_, ?_, ?_⟩
  · exact ((validar_limite 2025 "SELECT a FROM contele.contele_os WHERE b = 1 LIMIT 2000"
      rfl).2.1 2000 rfl (by norm_num)).1
  · exact ((validar_limite 2025 "SELECT a FROM contele.contele_os WHERE b = 1 LIMIT 2000"
      rfl).2.1 2000 rfl (by norm_num)).2
  · exact (validar_limite 2025 "SELECT a FROM contele.contele_os WHERE b = 1 LIMIT 500"
      rfl).2.2 500 rfl (by norm_num) (by norm_num)

end ConteleIA
